import Mathlib

/-!
Verification of the ntfs_pancake file-compression pipeline.

The development shallowly embeds `src/ntfs_pancake.go`:
the decision policy and the statistics updates of `processFile`,
the in-memory ratio estimator `compressFileInMemory`,
the `filepath.Walk`-based traversal of `scanAndCompressFolder`,
and the argument handling of `main`.

External effects are passed explicitly: each file task carries the
results the OS would return for it (stat size, the runtime memory
statistic, the estimator result, success of the compression control
calls), and a run is the fold of `processFile` over the list of task
environments, which is how the mutex-serialized statistics updates
interleave.  Go `float64` arithmetic in the saving-ratio comparison is
modelled exactly over `ℚ`, with the IEEE zero-denominator cases
(`+Inf`, `-Inf`, `NaN`) handled explicitly.
-/

namespace NtfsPancake

/-- The two outcomes of the policy: enable or disable the NTFS
compression attribute (the two branches of `processFile`). -/
inductive Decision where
  | Enable : Decision
  | Disable : Decision
deriving DecidableEq, Repr

/-- Constant `COMPRESSION_EFFICIENCY_THRESHOLD = 10` (ntfs_pancake.go line 22). -/
def COMPRESSION_EFFICIENCY_THRESHOLD : ℚ := 10

/-- The comparison `savingRatio < COMPRESSION_EFFICIENCY_THRESHOLD` of
`processFile` (lines 148-154), where
`savingRatio = float64(spaceSaved) / float64(originalSize) * 100`.
Finite `float64` arithmetic is modelled exactly over `ℚ`.  When
`originalSize = 0`, Go division yields `+Inf` (for `spaceSaved > 0`),
`-Inf` (for `spaceSaved < 0`) or `NaN` (for `spaceSaved = 0`);
`+Inf < 10` and `NaN < 10` are false and `-Inf < 10` is true, so the
comparison holds in that case exactly when `spaceSaved < 0`. -/
def savingRatioLtThreshold (originalSize compressedSize : Int) : Bool :=
  let spaceSaved := originalSize - compressedSize
  if originalSize = 0 then
    decide (spaceSaved < 0)
  else
    decide ((spaceSaved : ℚ) / (originalSize : ℚ) * 100 < COMPRESSION_EFFICIENCY_THRESHOLD)

/-- The decision taken by `processFile` (lines 154-171): `Disable` on the
`savingRatio < COMPRESSION_EFFICIENCY_THRESHOLD` branch, `Enable`
otherwise. -/
def decideCompression (originalSize compressedSize : Int) : Decision :=
  if savingRatioLtThreshold originalSize compressedSize then Decision.Disable
  else Decision.Enable

/-- The four global counters of ntfs_pancake.go (lines 26-32), mutated
under the single mutex `mu`. -/
structure RunStats where
  totalFilesProcessed : Int
  totalFilesCompressed : Int
  totalFilesDecompressed : Int
  totalSpaceSaved : Int
deriving DecidableEq, Repr

/-- The zero-initialised globals at program start. -/
def initialStats : RunStats := ⟨0, 0, 0, 0⟩

/-- The environment one `processFile` call runs in: the results the OS
returns for this path.  `statSize` is the `getFileSize` result (`none`
for an error), `memFrees` the `runtime.MemStats.Frees` value read at the
start of the call, `estimate` the `compressFileInMemory` result (`none`
for an error), and `applyEnableOk` / `applyDisableOk` whether
`enableCompression` / `disableCompression` would succeed on this path. -/
structure FileEnv where
  statSize : Option Int
  memFrees : Int
  estimate : Option (Int × Int)
  applyEnableOk : Bool
  applyDisableOk : Bool
deriving DecidableEq, Repr

/-- Function `processFile` (ntfs_pancake.go lines 124-173) as a statistics
transformer.  Early returns (stat error, the available-memory guard
`originalSize > int64(memStat.Frees)` at lines 135-138, estimation
error) leave the counters untouched; otherwise `totalFilesProcessed` is
incremented and the decision branch increments
`totalFilesDecompressed`, or `totalFilesCompressed` together with
`totalSpaceSaved`, only when the corresponding control call succeeds. -/
def processFile (e : FileEnv) (s : RunStats) : RunStats :=
  match e.statSize with
  | none => s
  | some size =>
    if size > e.memFrees then s
    else
      match e.estimate with
      | none => s
      | some (originalSize, compressedSize) =>
        let spaceSaved := originalSize - compressedSize
        let p := s.totalFilesProcessed + 1
        if savingRatioLtThreshold originalSize compressedSize then
          if e.applyDisableOk then
            ⟨p, s.totalFilesCompressed, s.totalFilesDecompressed + 1, s.totalSpaceSaved⟩
          else
            ⟨p, s.totalFilesCompressed, s.totalFilesDecompressed, s.totalSpaceSaved⟩
        else
          if e.applyEnableOk then
            ⟨p, s.totalFilesCompressed + 1, s.totalFilesDecompressed,
              s.totalSpaceSaved + spaceSaved⟩
          else
            ⟨p, s.totalFilesCompressed, s.totalFilesDecompressed, s.totalSpaceSaved⟩

/-- A whole run: the workers' serialized `processFile` calls, folded in
the order the mutex admits them. -/
def runStats (envs : List FileEnv) (s : RunStats) : RunStats :=
  envs.foldl (fun acc e => processFile e acc) s

/-- Net change of `totalFilesProcessed` made by one `processFile` call. -/
def deltaProcessed (e : FileEnv) : Int :=
  match e.statSize with
  | none => 0
  | some size =>
    if size > e.memFrees then 0
    else
      match e.estimate with
      | none => 0
      | some _ => 1

/-- Net change of `totalFilesCompressed` made by one `processFile` call. -/
def deltaCompressed (e : FileEnv) : Int :=
  match e.statSize with
  | none => 0
  | some size =>
    if size > e.memFrees then 0
    else
      match e.estimate with
      | none => 0
      | some (originalSize, compressedSize) =>
        if savingRatioLtThreshold originalSize compressedSize then 0
        else if e.applyEnableOk then 1 else 0

/-- Net change of `totalFilesDecompressed` made by one `processFile` call. -/
def deltaDecompressed (e : FileEnv) : Int :=
  match e.statSize with
  | none => 0
  | some size =>
    if size > e.memFrees then 0
    else
      match e.estimate with
      | none => 0
      | some (originalSize, compressedSize) =>
        if savingRatioLtThreshold originalSize compressedSize then
          if e.applyDisableOk then 1 else 0
        else 0

/-- Net change of `totalSpaceSaved` made by one `processFile` call. -/
def deltaSaved (e : FileEnv) : Int :=
  match e.statSize with
  | none => 0
  | some size =>
    if size > e.memFrees then 0
    else
      match e.estimate with
      | none => 0
      | some (originalSize, compressedSize) =>
        if savingRatioLtThreshold originalSize compressedSize then 0
        else if e.applyEnableOk then originalSize - compressedSize else 0

/-- The call reached one of the two compression-control calls and that
call failed (the only way a file counted by `totalFilesProcessed` ends
up in neither `totalFilesCompressed` nor `totalFilesDecompressed`). -/
def applyStepFailed (e : FileEnv) : Bool :=
  match e.statSize with
  | none => false
  | some size =>
    if size > e.memFrees then false
    else
      match e.estimate with
      | none => false
      | some (originalSize, compressedSize) =>
        if savingRatioLtThreshold originalSize compressedSize then !e.applyDisableOk
        else !e.applyEnableOk

/-- The reading of `filesFailed` used by the spec's invariant: the
estimation step failed, or the compression-control call failed. -/
def estimationOrApplyFailed (e : FileEnv) : Bool :=
  match e.statSize with
  | none => false
  | some size =>
    if size > e.memFrees then false
    else
      match e.estimate with
      | none => true
      | some (originalSize, compressedSize) =>
        if savingRatioLtThreshold originalSize compressedSize then !e.applyDisableOk
        else !e.applyEnableOk

/-- Number of tasks in a run whose compression-control call failed. -/
def countApplyFailed (envs : List FileEnv) : Int :=
  ((envs.filter fun e => applyStepFailed e).length : Int)

/-- Number of tasks in a run whose estimation step or
compression-control call failed (the spec's `filesFailed`). -/
def countEstimationOrApplyFailed (envs : List FileEnv) : Int :=
  ((envs.filter fun e => estimationOrApplyFailed e).length : Int)

/-- The bytes the spec says a task should contribute to
`totalBytesSaved`: `originalSize - compressedSize` when the task
received an `Enable` decision and its control call succeeded, `0`
otherwise. -/
def enabledApplySavings (e : FileEnv) : Int :=
  match e.statSize with
  | none => 0
  | some size =>
    if size > e.memFrees then 0
    else
      match e.estimate with
      | none => 0
      | some (originalSize, compressedSize) =>
        if decideCompression originalSize compressedSize = Decision.Enable
            ∧ e.applyEnableOk = true then
          originalSize - compressedSize
        else 0

/-!
The directory traversal of `scanAndCompressFolder` (lines 200-220):
`filepath.Walk` with a callback that returns the error it is handed
(aborting the walk) and otherwise sends every regular file into the
worker channel.
-/

/-- A directory tree as the traversal sees it.  `file` is a regular
file, `special` a non-regular non-directory entry (symlink, device),
`badStat` an entry whose `lstat` fails, and `dir` a directory whose
`readDirNames` succeeds when `listOk` and fails otherwise. -/
inductive FSTree where
  | file : String → FSTree
  | special : String → FSTree
  | badStat : String → FSTree
  | dir : String → Bool → List FSTree → FSTree

mutual

/-- Walking one node: the regular-file names sent to the channel, in
order, and whether the walk ended in an error.  Mirrors Go's
`filepath.Walk` driving the callback at lines 203-215: a callback error
(which the callback returns whenever `lstat` or `readDirNames` handed it
one) aborts the whole remaining walk. -/
def walkTree : FSTree → List String × Bool
  | FSTree.file n => ([n], false)
  | FSTree.special _ => ([], false)
  | FSTree.badStat _ => ([], true)
  | FSTree.dir _ listOk entries =>
    if listOk then walkEntries entries else ([], true)

/-- Walking the children of a directory, left to right, stopping at the
first child whose walk ends in an error. -/
def walkEntries : List FSTree → List String × Bool
  | [] => ([], false)
  | t :: ts =>
    let r := walkTree t
    if r.2 then (r.1, true)
    else
      let rs := walkEntries ts
      (r.1 ++ rs.1, rs.2)

end

/-!
Function `main` (lines 226-241): argument check, scan, summary.  Go's
`return` from `main` terminates the process with exit status 0;
`os.Exit` is never called.
-/

/-- Observable behaviour of one program invocation. -/
structure MainResult where
  printedUsage : Bool
  ranScan : Bool
  printedSummary : Bool
  exitCode : Nat
deriving DecidableEq, Repr

/-- Function `main` of `os.Args` (program name included).  With
`len(os.Args) != 2` it prints the usage line and returns — exiting the
process with status 0, since Go's runtime exits 0 on a plain return from
`main`; otherwise it scans, prints the summary and likewise exits 0. -/
def mainGo (args : List String) : MainResult :=
  if args.length ≠ 2 then ⟨true, false, false, 0⟩
  else ⟨false, true, true, 0⟩

/-!
The ratio estimator `compressFileInMemory` (lines 77-122): a 4096-byte
read loop feeding a flate writer backed by an in-memory buffer.  A file
read is modelled as the list of chunks successive `Read` calls return
(each non-empty and at most 4096 bytes until end of file, where the loop
stops), and the flate compressor as a function from the written byte
stream to the sink contents: deflate output is a deterministic function
of the byte stream and the (fixed, default) compression level,
independent of `Write` call boundaries, and `writer.Close()` at line 114
flushes everything before the sink length is read at line 119.
-/

/-- The read loop of `compressFileInMemory` (lines 98-111): accumulates
the bytes handed to the writer and the running `originalSize`, stopping
at the first read that returns `n = 0`. -/
def readLoop : List Nat → Int → List (List Nat) → Int × List Nat
  | written, originalSize, [] => (originalSize, written)
  | written, originalSize, chunk :: rest =>
    if chunk.length = 0 then (originalSize, written)
    else readLoop (written ++ chunk) (originalSize + (chunk.length : Int)) rest

/-- Function `compressFileInMemory` for a file whose successive reads return
`chunks`, with `compressor` the flate stream function: returns
`(originalSize, compressedSize)` where `compressedSize` is the sink
length after the writer is closed. -/
def compressFileInMemory (compressor : List Nat → List Nat)
    (chunks : List (List Nat)) : Int × Int :=
  let r := readLoop [] 0 chunks
  (r.1, ((compressor r.2).length : Int))

/-!
Helper lemmas: concrete saving-ratio evaluations, the per-call effect of
`processFile` as a delta vector, and the characterization of a whole run
as component-wise sums of those deltas.
-/

theorem ratioLt_100_85 : savingRatioLtThreshold 100 85 = false := by
  norm_num [savingRatioLtThreshold, COMPRESSION_EFFICIENCY_THRESHOLD]

theorem ratioLt_100_95 : savingRatioLtThreshold 100 95 = true := by
  norm_num [savingRatioLtThreshold, COMPRESSION_EFFICIENCY_THRESHOLD]

theorem ratioLt_100_100 : savingRatioLtThreshold 100 100 = true := by
  norm_num [savingRatioLtThreshold, COMPRESSION_EFFICIENCY_THRESHOLD]

theorem ratioLt_100_1 : savingRatioLtThreshold 100 1 = false := by
  norm_num [savingRatioLtThreshold, COMPRESSION_EFFICIENCY_THRESHOLD]

theorem processFile_eq (e : FileEnv) (s : RunStats) :
    processFile e s
      = ⟨s.totalFilesProcessed + deltaProcessed e,
         s.totalFilesCompressed + deltaCompressed e,
         s.totalFilesDecompressed + deltaDecompressed e,
         s.totalSpaceSaved + deltaSaved e⟩ := by
  rcases e with ⟨st, mf, est, aeo, ado⟩
  cases st with
  | none =>
    simp [processFile, deltaProcessed, deltaCompressed, deltaDecompressed, deltaSaved]
  | some size =>
    by_cases hmem : size > mf
    · simp [processFile, deltaProcessed, deltaCompressed, deltaDecompressed, deltaSaved, hmem]
    · cases est with
      | none =>
        simp [processFile, deltaProcessed, deltaCompressed, deltaDecompressed, deltaSaved, hmem]
      | some oc =>
        obtain ⟨o, c⟩ := oc
        by_cases hr : savingRatioLtThreshold o c = true
        · cases ado <;>
            simp [processFile, deltaProcessed, deltaCompressed, deltaDecompressed, deltaSaved,
              hmem, hr]
        · cases aeo <;>
            simp [processFile, deltaProcessed, deltaCompressed, deltaDecompressed, deltaSaved,
              hmem, hr]

theorem runStats_cons (e : FileEnv) (es : List FileEnv) (s : RunStats) :
    runStats (e :: es) s = runStats es (processFile e s) := rfl

theorem runStats_eq (envs : List FileEnv) (s : RunStats) :
    runStats envs s
      = ⟨s.totalFilesProcessed + (envs.map deltaProcessed).sum,
         s.totalFilesCompressed + (envs.map deltaCompressed).sum,
         s.totalFilesDecompressed + (envs.map deltaDecompressed).sum,
         s.totalSpaceSaved + (envs.map deltaSaved).sum⟩ := by
  induction envs generalizing s with
  | nil => simp [runStats]
  | cons e es ih =>
    rw [runStats_cons, ih, processFile_eq]
    simp [add_assoc]

theorem delta_split_single (e : FileEnv) :
    deltaProcessed e
      = deltaCompressed e + deltaDecompressed e
        + (if applyStepFailed e = true then 1 else 0) := by
  rcases e with ⟨st, mf, est, aeo, ado⟩
  cases st with
  | none => simp [deltaProcessed, deltaCompressed, deltaDecompressed, applyStepFailed]
  | some size =>
    by_cases hmem : size > mf
    · simp [deltaProcessed, deltaCompressed, deltaDecompressed, applyStepFailed, hmem]
    · cases est with
      | none =>
        simp [deltaProcessed, deltaCompressed, deltaDecompressed, applyStepFailed, hmem]
      | some oc =>
        obtain ⟨o, c⟩ := oc
        by_cases hr : savingRatioLtThreshold o c = true
        · cases ado <;>
            simp [deltaProcessed, deltaCompressed, deltaDecompressed, applyStepFailed, hmem, hr]
        · cases aeo <;>
            simp [deltaProcessed, deltaCompressed, deltaDecompressed, applyStepFailed, hmem, hr]

theorem countApplyFailed_cons (e : FileEnv) (es : List FileEnv) :
    countApplyFailed (e :: es)
      = (if applyStepFailed e = true then 1 else 0) + countApplyFailed es := by
  cases hf : applyStepFailed e <;> simp [countApplyFailed, List.filter_cons, hf]
  ring

theorem sum_delta_split (envs : List FileEnv) :
    (envs.map deltaProcessed).sum
      = (envs.map deltaCompressed).sum + (envs.map deltaDecompressed).sum
        + countApplyFailed envs := by
  induction envs with
  | nil => simp [countApplyFailed]
  | cons e es ih =>
    rw [List.map_cons, List.map_cons, List.map_cons, List.sum_cons, List.sum_cons,
      List.sum_cons, countApplyFailed_cons, delta_split_single e, ih]
    ring

theorem delta_compressed_add_decompressed_le (e : FileEnv) :
    deltaCompressed e + deltaDecompressed e ≤ deltaProcessed e := by
  rw [delta_split_single e]
  split <;> omega

theorem deltaSaved_eq_enabledApplySavings (e : FileEnv) :
    deltaSaved e = enabledApplySavings e := by
  rcases e with ⟨st, mf, est, aeo, ado⟩
  cases st with
  | none => simp [deltaSaved, enabledApplySavings]
  | some size =>
    by_cases hmem : size > mf
    · simp [deltaSaved, enabledApplySavings, hmem]
    · cases est with
      | none => simp [deltaSaved, enabledApplySavings, hmem]
      | some oc =>
        obtain ⟨o, c⟩ := oc
        by_cases hr : savingRatioLtThreshold o c = true
        · simp [deltaSaved, enabledApplySavings, decideCompression, hmem, hr]
        · cases aeo <;>
            simp [deltaSaved, enabledApplySavings, decideCompression, hmem, hr]

theorem readLoop_join (chunks : List (List Nat)) :
    ∀ (written : List Nat) (osz : Int), (∀ c ∈ chunks, c ≠ []) →
      readLoop written osz chunks
        = (osz + (chunks.flatten.length : Int), written ++ chunks.flatten) := by
  induction chunks with
  | nil => intro w o _; simp [readLoop]
  | cons c cs ih =>
    intro w o h
    have hc : c.length ≠ 0 := by
      simpa [List.length_eq_zero] using h c (by simp)
    rw [readLoop]
    simp only [hc, if_false, ite_false]
    rw [ih (w ++ c) (o + (c.length : Int)) (fun x hx => h x (by simp [hx]))]
    simp [List.flatten, List.append_assoc]
    ring

/-!
Claim theorems.
-/

/-- Claim C1, counterexample: with `filesFailed` read as counting every
file whose estimation or apply step failed, the invariant
`filesProcessed = filesCompressed + filesDecompressed + filesFailed`
fails on a run with a single file whose estimation fails: that file is
counted by `filesFailed` but `processFile` returns before incrementing
`totalFilesProcessed`, so the run ends with `0 = 0 + 0 + 1`. -/
theorem run_filesProcessed_misses_estimation_failures :
    ¬ ((runStats [⟨some 1, 10, none, true, true⟩] initialStats).totalFilesProcessed
        = (runStats [⟨some 1, 10, none, true, true⟩] initialStats).totalFilesCompressed
          + (runStats [⟨some 1, 10, none, true, true⟩] initialStats).totalFilesDecompressed
          + countEstimationOrApplyFailed [⟨some 1, 10, none, true, true⟩]) := by
  decide

/-- Claim C1 (amended): after the pool drains,
`filesProcessed = filesCompressed + filesDecompressed + filesFailed`
holds with `filesFailed` counting exactly the files whose controller
apply step failed; files whose estimation (or stat, or memory guard)
step failed are not counted by `filesProcessed` at all. -/
theorem run_filesProcessed_eq_compressed_add_decompressed_add_applyFailed
    (envs : List FileEnv) :
    (runStats envs initialStats).totalFilesProcessed
      = (runStats envs initialStats).totalFilesCompressed
        + (runStats envs initialStats).totalFilesDecompressed
        + countApplyFailed envs := by
  rw [runStats_eq]
  simpa [initialStats] using sum_delta_split envs

/-- Claim C2: on input `originalSize = 0`, `compressedSize = 0` the
decision step does not crash, but contrary to the claim it returns
`Enable`, not `Disable`: Go computes `0.0 / 0.0 = NaN`, `NaN < 10` is
false, and the code falls into the enable branch, propagating the NaN
comparison instead of defining the degenerate case. -/
theorem decideCompression_zero_zero_enable :
    decideCompression 0 0 = Decision.Enable
    ∧ decideCompression 0 0 ≠ Decision.Disable :=
  ⟨rfl, by decide⟩

/-- Claim C3, counterexample: an error while descending into the subtree
`a` does stop traversal of the remaining sibling `b`: the regular file
`b` is never emitted, although without the failing sibling it would have
been.  The walk callback returns every error it is handed, and
`filepath.Walk` aborts the whole walk on a callback error. -/
theorem walk_subtree_error_stops_siblings :
    "b" ∉ (walkTree (FSTree.dir "root" true [FSTree.badStat "a", FSTree.file "b"])).1
    ∧ (walkTree (FSTree.dir "root" true [FSTree.badStat "a", FSTree.file "b"])).2 = true
    ∧ "b" ∈ (walkTree (FSTree.dir "root" true [FSTree.file "b"])).1 := by
  decide

/-- Claim C3 (amended): an error encountered at any entry — not only on
the root path — aborts the entire remaining walk: once a child's walk
ends in an error, the files emitted are exactly those gathered before
and inside that child, and no later sibling is traversed. -/
theorem walkEntries_abort_on_error (ts1 : List FSTree) (t : FSTree) (ts2 : List FSTree)
    (h1 : (walkEntries ts1).2 = false) (h2 : (walkTree t).2 = true) :
    walkEntries (ts1 ++ t :: ts2) = ((walkEntries ts1).1 ++ (walkTree t).1, true) := by
  induction ts1 with
  | nil =>
    rw [List.nil_append, walkEntries]
    simp [h2, walkEntries]
  | cons u us ih =>
    cases hx : (walkTree u).2 with
    | true =>
      exfalso
      rw [walkEntries] at h1
      simp [hx] at h1
    | false =>
      rw [walkEntries] at h1
      simp only [hx, Bool.false_eq_true, if_false, ite_false] at h1
      rw [List.cons_append, walkEntries]
      simp only [hx, Bool.false_eq_true, if_false, ite_false, ih h1, walkEntries]
      simp [List.append_assoc]

/-- Witness for the amended claim C3 at a concrete tree. -/
theorem walkEntries_abort_on_error_witness :
    walkEntries ([FSTree.file "x"] ++ FSTree.badStat "a" :: [FSTree.file "b"])
      = ((walkEntries [FSTree.file "x"]).1 ++ (walkTree (FSTree.badStat "a")).1, true) :=
  walkEntries_abort_on_error [FSTree.file "x"] (FSTree.badStat "a") [FSTree.file "b"] rfl rfl

/-- Claim C4, counterexample: an invocation with a missing argument
prints usage and performs no processing, but exits with code 0, not a
non-zero code: `main` just returns, and a plain return from Go's `main`
terminates the process with status 0. -/
theorem usage_error_exit_code_zero :
    (mainGo ["ntfs_pancake"]).printedUsage = true
    ∧ (mainGo ["ntfs_pancake"]).ranScan = false
    ∧ (mainGo ["ntfs_pancake"]).exitCode = 0 := by
  decide

/-- Claim C4 (amended): a missing or extra command-line argument prints
usage and performs no file processing, and the process exits with code
zero — the same code a completed run exits with. -/
theorem mainGo_usage_behavior (args : List String) :
    (args.length ≠ 2 → mainGo args = ⟨true, false, false, 0⟩)
    ∧ (args.length = 2 → mainGo args = ⟨false, true, true, 0⟩) := by
  constructor <;> intro h <;> simp [mainGo, h]

/-- Witness for the amended claim C4 on concrete argument vectors. -/
theorem mainGo_usage_behavior_witness :
    mainGo ["ntfs_pancake"] = ⟨true, false, false, 0⟩
    ∧ mainGo ["ntfs_pancake", "C:", "extra"] = ⟨true, false, false, 0⟩
    ∧ mainGo ["ntfs_pancake", "C:"] = ⟨false, true, true, 0⟩ :=
  ⟨(mainGo_usage_behavior ["ntfs_pancake"]).1 (by decide),
   (mainGo_usage_behavior ["ntfs_pancake", "C:", "extra"]).1 (by decide),
   (mainGo_usage_behavior ["ntfs_pancake", "C:"]).2 (by decide)⟩

/-- Claim C5, counterexample: whether a file is estimated does depend on
a runtime free-memory proxy.  Two calls on the same file data — same
stat size, same estimator result, same apply results — differing only in
the `runtime.MemStats.Frees` value read at the start of the call: one is
skipped untouched, the other is processed and recorded.  The code keeps
the available-memory guard the design note says is dropped. -/
theorem processFile_depends_on_memFrees :
    processFile ⟨some 100, 50, some (100, 1), true, true⟩ initialStats = initialStats
    ∧ processFile ⟨some 100, 1000, some (100, 1), true, true⟩ initialStats ≠ initialStats := by
  constructor
  · decide
  · have hval : processFile ⟨some 100, 1000, some (100, 1), true, true⟩ initialStats
        = ⟨1, 1, 0, 99⟩ := by
      simp [processFile, ratioLt_100_1, initialStats]
    rw [hval]
    decide

/-- Claim C5 (amended): `processFile` skips — without estimating or
recording anything — every file whose stat size exceeds the
`runtime.MemStats.Frees` value read at the start of the call, so
processing does depend on this runtime free-memory heuristic. -/
theorem processFile_memory_guard_skips (e : FileEnv) (s : RunStats) (size : Int)
    (hsize : e.statSize = some size) (hmem : e.memFrees < size) :
    processFile e s = s := by
  rcases e with ⟨st, mf, est, aeo, ado⟩
  cases st with
  | none => simp at hsize
  | some sz =>
    simp only [FileEnv.statSize, Option.some.injEq] at hsize
    subst hsize
    simp only [FileEnv.memFrees] at hmem
    simp [processFile, hmem]

/-- Witness for the amended claim C5 at a concrete oversized file. -/
theorem processFile_memory_guard_skips_witness :
    processFile ⟨some 200, 50, none, false, false⟩ initialStats = initialStats :=
  processFile_memory_guard_skips _ _ 200 rfl (by decide)

/-- Claim C6: for `originalSize > 0` the decision is `Disable` exactly
when `(originalSize - compressedSize) / originalSize * 100` is strictly
below the fixed 10 percent threshold (and `Enable` otherwise), and in
particular `decide(100, 85) = Enable`, `decide(100, 95) = Disable`,
`decide(100, 100) = Disable`.  Finite `float64` arithmetic is modelled
exactly over `ℚ`. -/
theorem decideCompression_threshold_spec (originalSize compressedSize : Int)
    (h : 0 < originalSize) :
    (decideCompression originalSize compressedSize = Decision.Disable
      ↔ ((originalSize : ℚ) - (compressedSize : ℚ)) / (originalSize : ℚ) * 100 < 10)
    ∧ decideCompression 100 85 = Decision.Enable
    ∧ decideCompression 100 95 = Decision.Disable
    ∧ decideCompression 100 100 = Decision.Disable := by
  refine ⟨?_, by simp [decideCompression, ratioLt_100_85],
    by simp [decideCompression, ratioLt_100_95],
    by simp [decideCompression, ratioLt_100_100]⟩
  have ho : originalSize ≠ 0 := by omega
  have hcast : (((originalSize - compressedSize : Int)) : ℚ)
      = (originalSize : ℚ) - (compressedSize : ℚ) := by push_cast; ring
  have key : savingRatioLtThreshold originalSize compressedSize = true
      ↔ ((originalSize : ℚ) - (compressedSize : ℚ)) / (originalSize : ℚ) * 100 < 10 := by
    simp only [savingRatioLtThreshold, COMPRESSION_EFFICIENCY_THRESHOLD, ho, if_false,
      ite_false, decide_eq_true_eq, hcast]
  cases hb : savingRatioLtThreshold originalSize compressedSize with
  | false =>
    rw [hb] at key
    simp only [Bool.false_eq_true, false_iff] at key
    simp [decideCompression, hb, key]
  | true =>
    rw [hb] at key
    simp only [true_iff] at key
    simp [decideCompression, hb, key]

/-- Witness for claim C6 at a concrete input with ratio 5 percent. -/
theorem decideCompression_threshold_spec_witness :
    decideCompression 20 19 = Decision.Disable :=
  ((decideCompression_threshold_spec 20 19 (by norm_num)).1).mpr (by norm_num)

/-- Claim C7: the final `totalSpaceSaved` is the sum, over exactly the
files that received an `Enable` decision and whose `enableCompression`
call succeeded, of `originalSize - compressedSize`; `Disable` decisions
and failed apply calls contribute nothing. -/
theorem totalSpaceSaved_eq_sum_enabled_applied (envs : List FileEnv) :
    (runStats envs initialStats).totalSpaceSaved
      = (envs.map enabledApplySavings).sum := by
  rw [runStats_eq]
  have hfun : deltaSaved = enabledApplySavings := funext deltaSaved_eq_enabledApplySavings
  rw [hfun]
  simp [initialStats]

/-- Claim C8: `compressFileInMemory` reports `originalSize` equal to the
total number of bytes read and `compressedSize` equal to the length of
the compressor sink over the fully written stream after the writer is
closed, and the result depends only on the byte stream, not on how the
reads chunk it (determinism: same bytes in, same sizes out). -/
theorem compressFileInMemory_sizes_deterministic
    (compressor : List Nat → List Nat) (chunks chunks' : List (List Nat))
    (h : ∀ c ∈ chunks, c ≠ [] ∧ c.length ≤ 4096)
    (h' : ∀ c ∈ chunks', c ≠ [] ∧ c.length ≤ 4096)
    (hjoin : chunks.flatten = chunks'.flatten) :
    compressFileInMemory compressor chunks
      = ((chunks.flatten.length : Int), ((compressor chunks.flatten).length : Int))
    ∧ compressFileInMemory compressor chunks
      = compressFileInMemory compressor chunks' := by
  have e1 : compressFileInMemory compressor chunks
      = ((chunks.flatten.length : Int), ((compressor chunks.flatten).length : Int)) := by
    rw [compressFileInMemory, readLoop_join chunks [] 0 (fun c hc => (h c hc).1)]
    simp
  have e2 : compressFileInMemory compressor chunks'
      = ((chunks'.flatten.length : Int), ((compressor chunks'.flatten).length : Int)) := by
    rw [compressFileInMemory, readLoop_join chunks' [] 0 (fun c hc => (h' c hc).1)]
    simp
  exact ⟨e1, by rw [e1, e2, hjoin]⟩

/-- Witness for claim C8 on two chunkings of the same three bytes. -/
theorem compressFileInMemory_sizes_deterministic_witness :
    compressFileInMemory List.reverse [[1, 2], [3]]
      = ((([[1, 2], [3]] : List (List Nat)).flatten.length : Int),
         ((List.reverse ([[1, 2], [3]] : List (List Nat)).flatten).length : Int))
    ∧ compressFileInMemory List.reverse [[1, 2], [3]]
      = compressFileInMemory List.reverse [[1], [2, 3]] :=
  compressFileInMemory_sizes_deterministic List.reverse [[1, 2], [3]] [[1], [2, 3]]
    (by decide) (by decide) (by decide)

/-- Claim C9: the final statistics of a run do not depend on the order
in which the workers' serialized `processFile` calls interleave: any two
runs over permutations of the same file tasks — in particular a pool of
size 1 and a pool of size N over the same files — end with identical
`RunStats`. -/
theorem runStats_perm_invariant (envs1 envs2 : List FileEnv)
    (h : envs1.Perm envs2) (s : RunStats) :
    runStats envs1 s = runStats envs2 s := by
  rw [runStats_eq, runStats_eq,
    (h.map deltaProcessed).sum_eq, (h.map deltaCompressed).sum_eq,
    (h.map deltaDecompressed).sum_eq, (h.map deltaSaved).sum_eq]

/-- Witness for claim C9 on a concrete two-task run in both orders. -/
theorem runStats_perm_invariant_witness :
    runStats [⟨some 3, 10, none, true, true⟩, ⟨none, 0, none, false, false⟩] initialStats
      = runStats [⟨none, 0, none, false, false⟩, ⟨some 3, 10, none, true, true⟩]
          initialStats :=
  runStats_perm_invariant _ _ (List.Perm.swap _ _ _) initialStats

/-- Claim C10: in every run the counters satisfy
`totalFilesCompressed + totalFilesDecompressed ≤ totalFilesProcessed`,
and a `processFile` call whose controller apply step fails increments
`totalFilesProcessed` while leaving `totalFilesCompressed`,
`totalFilesDecompressed` and `totalSpaceSaved` unchanged. -/
theorem stats_bound_and_apply_failure_effect :
    (∀ envs : List FileEnv,
        (runStats envs initialStats).totalFilesCompressed
          + (runStats envs initialStats).totalFilesDecompressed
          ≤ (runStats envs initialStats).totalFilesProcessed)
    ∧ (∀ (e : FileEnv) (s : RunStats), applyStepFailed e = true →
        processFile e s
          = ⟨s.totalFilesProcessed + 1, s.totalFilesCompressed,
             s.totalFilesDecompressed, s.totalSpaceSaved⟩) := by
  constructor
  · intro envs
    rw [runStats_eq]
    simp only [initialStats, zero_add]
    have hsum : (envs.map deltaCompressed).sum + (envs.map deltaDecompressed).sum
        ≤ (envs.map deltaProcessed).sum := by
      induction envs with
      | nil => simp
      | cons e es ih =>
        simp only [List.map_cons, List.sum_cons]
        have := delta_compressed_add_decompressed_le e
        omega
    exact hsum
  · intro e s hf
    rcases e with ⟨st, mf, est, aeo, ado⟩
    cases st with
    | none => simp [applyStepFailed] at hf
    | some size =>
      by_cases hmem : size > mf
      · simp [applyStepFailed, hmem] at hf
      · cases est with
        | none => simp [applyStepFailed, hmem] at hf
        | some oc =>
          obtain ⟨o, c⟩ := oc
          by_cases hr : savingRatioLtThreshold o c = true
          · have hado : ado = false := by
              simpa [applyStepFailed, hmem, hr] using hf
            subst hado
            simp [processFile, hmem, hr]
          · have haeo : aeo = false := by
              simpa [applyStepFailed, hmem, hr] using hf
            subst haeo
            simp [processFile, hmem, hr]

/-- Witness for claim C10 at a concrete failing apply call. -/
theorem stats_bound_and_apply_failure_effect_witness :
    processFile ⟨some 5, 10, some (0, 5), true, false⟩ initialStats
      = ⟨initialStats.totalFilesProcessed + 1, initialStats.totalFilesCompressed,
         initialStats.totalFilesDecompressed, initialStats.totalSpaceSaved⟩ :=
  stats_bound_and_apply_failure_effect.2 ⟨some 5, 10, some (0, 5), true, false⟩
    initialStats (by decide)

end NtfsPancake
